import Mathlib

/-!
Shallow embedding of the `linak-ble-controller` package (Python) and proofs
about it.  The embedding covers:

* `helper.py` / `UnitConverter`: raw-tick ↔ millimetre/speed conversion.
  Python's true division `/` is exact on these inputs, so converted
  quantities are modelled as rationals; on the command path Python's
  integer arithmetic keeps `mm_to_raw` integral, which `mm_to_raw_int`
  captures (with a lemma tying it to the rational definition).
* `bluetooth.py` / `BluetoothAdapter`: `move_to_target`, `move_to` and
  `run_command`, modelled as trace-producing functions.  The BLE device is
  abstracted as the stream of telemetry samples successive reads of the
  height characteristic return; a decoded sample is an unsigned 16-bit
  position and a signed 16-bit speed.  Loops are given explicit fuel; a
  `none` result means the fuel ran out, i.e. the Python loop would still be
  running.  Log events carry the raw decoded values; `renderLog` produces
  the formatted string the Python code prints/sends.
* `config.py` / `UserConfig`: default-config merge and `_validate_config`.
* `controller.py` / `LinakController.run`: the top-level try/except/finally
  orchestration, with the network/BLE environment abstracted as the outcome
  the chosen body produces.
-/

namespace LinakBLE

/-! ## Unit conversion (`helper.py`, class `UnitConverter`) -/

/-- `UnitConverter.mm_to_raw`: `(mm - self.base_height) * 10`. -/
def mm_to_raw (base_height mm : ℚ) : ℚ := (mm - base_height) * 10

/-- `UnitConverter.raw_to_mm`: `(raw / 10) + self.base_height`. -/
def raw_to_mm (base_height raw : ℚ) : ℚ := raw / 10 + base_height

/-- `UnitConverter.raw_to_speed`: `raw / 100`. -/
def raw_to_speed (raw : ℚ) : ℚ := raw / 100

/-- `UnitConverter.mm_to_raw` applied to Python `int`s: integer arithmetic
keeps the very same formula integral.  (`run_command` only ever calls it on
`int` heights.) -/
def mm_to_raw_int (base_height mm : ℤ) : ℤ := (mm - base_height) * 10

/-- The integer specialisation agrees with the rational definition. -/
theorem mm_to_raw_int_cast (b m : ℤ) :
    ((mm_to_raw_int b m : ℤ) : ℚ) = mm_to_raw (b : ℚ) (m : ℚ) := by
  unfold mm_to_raw_int mm_to_raw
  push_cast
  ring

/-! ## `struct.pack` and number formatting -/

/-- `struct.pack` with format `<H` (unsigned 16-bit little-endian): returns
the two bytes on success and raises `struct.error` when the argument is
outside `[0, 65535]`. -/
def packUShort (v : ℤ) : Except String (List ℕ) :=
  if 0 ≤ v ∧ v ≤ 65535 then Except.ok [v.toNat % 256, v.toNat / 256]
  else Except.error "struct.error: argument out of range"

/-- Round half to even, the rounding Python's fixed-point float formatting
with zero digits of precision performs.  (Python formats the IEEE double;
this rational model agrees on the values the program produces, and no claim
depends on the digits themselves.) -/
def roundHalfEven (q : ℚ) : ℤ :=
  let f := ⌊q⌋
  let r := q - (f : ℚ)
  if r < 1/2 then f
  else if 1/2 < r then f + 1
  else if f % 2 = 0 then f else f + 1

/-- Width-padded zero-precision fixed-point rendering of a number, as the
format specifications of width 4 (heights) and width 2 (speeds) in
`bluetooth.py` produce: rounded to an integer and left-padded with spaces
to the minimum width. -/
def fmtFixed (width : ℕ) (q : ℚ) : String :=
  let s := toString (roundHalfEven q)
  String.mk (List.replicate (width - s.length) ' ') ++ s

/-! ## Events and traces (`bluetooth.py`, class `BluetoothAdapter`) -/

/-- The three GATT characteristics of `GattCharacteristics`. -/
inductive Gatt
  | height
  | command
  | referenceInput
deriving DecidableEq, Repr

/-- The distinct log lines `BluetoothAdapter` emits through its log sink,
carrying the raw decoded values they are produced from. -/
inductive LogLine
  | heightOnly (height : ℕ)
  | heightSpeed (height : ℕ) (speed : ℤ)
  | movingToFavourite (value : String)
  | movingToHeight (value : String)
  | notValidHeight (value : String)
  | finalHeight (height : ℕ) (target : ℤ)
  | watching
deriving DecidableEq, Repr

/-- Rendering of a log line to the string the Python code formats, given
the unit converter's base height. -/
def renderLog (base_height : ℚ) : LogLine → String
  | .heightOnly h => "Height: " ++ fmtFixed 4 (raw_to_mm base_height h) ++ "mm"
  | .heightSpeed h sp =>
      "Height: " ++ fmtFixed 4 (raw_to_mm base_height h) ++ "mm Speed: " ++
        fmtFixed 2 (raw_to_speed sp) ++ "mm/s"
  | .movingToFavourite v => "Moving to favourite height: " ++ v
  | .movingToHeight v => "Moving to height: " ++ v
  | .notValidHeight v => "Not a valid height or favourite position: " ++ v
  | .finalHeight h t =>
      "Final height: " ++ fmtFixed 4 (raw_to_mm base_height h) ++
        "mm (Target: " ++ fmtFixed 4 (raw_to_mm base_height t) ++ "mm)"
  | .watching => "Watching for changes to desk height and speed"

/-- Observable actions of the adapter.  `readHeight` is a read of the
telemetry characteristic decoded with format `<Hh` (unsigned 16-bit height,
signed 16-bit speed); `writeGatt` is a successful 2-byte `<H` write of the
given value to the given characteristic. -/
inductive Event
  | readHeight (height : ℕ) (speed : ℤ)
  | writeGatt (g : Gatt) (value : ℕ)
  | sleepMs (ms : ℕ)
  | logMsg (line : LogLine)
  | subscribeHeight
deriving DecidableEq, Repr

/-- A telemetry sample: decoded height (unsigned 16-bit) and speed. -/
abbrev Telemetry := ℕ × ℤ

/-- Does the event write to the reference-input characteristic? -/
def isRefWrite : Event → Bool
  | .writeGatt .referenceInput _ => true
  | _ => false

/-- Is the event any GATT write at all? -/
def isWrite : Event → Bool
  | .writeGatt _ _ => true
  | _ => false

/-- Is the event a `Final height:` log line? -/
def isFinalLog : Event → Bool
  | .logMsg (.finalHeight _ _) => true
  | _ => false

/-- Python-exception-style outcome of a modelled coroutine.  `error` is an
uncaught exception propagating to the caller; `blocked` marks an await that
never completes (the `watch` future). -/
inductive Outcome
  | ok
  | error (msg : String)
  | blocked
deriving DecidableEq, Repr

/-- Result of a trace-producing adapter operation: the events it performed,
the index of the next unconsumed telemetry read, and how it finished. -/
structure MoveOut where
  trace : List Event
  next : ℕ
  out : Outcome
deriving DecidableEq, Repr

/-- `BluetoothAdapter.move_to_target`: packs `int(target)` (the identity on
the `int` targets the program produces) with format `<H` and writes the two
bytes to the reference-input characteristic; the `struct.error` for an
out-of-range value propagates and nothing is written. -/
def move_to_target (target : ℤ) : Except String (List Event) :=
  match packUShort target with
  | .error e => .error e
  | .ok _ => .ok [Event.writeGatt .referenceInput target.toNat]

/-- The `while current_height < target` loop of `BluetoothAdapter.move_to`:
write the target to the reference input, sleep 500 ms, re-read telemetry
into the locals `height, speed` — which feed only the log line — and loop.
Note that the source never reassigns `current_height` inside the loop, so
the recursion continues with the same `cur`: the guard keeps testing the
stale initial height whatever the reads return.  `reads` is the stream of
telemetry samples successive reads return, `idx` the next read index, `cur`
the value of `current_height`.  `none` means the fuel ran out with the loop
still running. -/
def moveLoop (target : ℤ) (reads : ℕ → Telemetry) :
    ℕ → ℕ → ℕ → Option MoveOut
  | 0, _, _ => none
  | fuel + 1, idx, cur =>
    if (cur : ℤ) < target then
      match move_to_target target with
      | .error e => some ⟨[], idx, .error e⟩
      | .ok evs =>
        let t := reads idx
        match moveLoop target reads fuel (idx + 1) cur with
        | none => none
        | some m =>
          some ⟨evs ++
              [Event.sleepMs 500, Event.readHeight t.1 t.2,
                Event.logMsg (.heightSpeed t.1 t.2)] ++ m.trace,
            m.next, m.out⟩
    else some ⟨[], idx, .ok⟩

/-- `BluetoothAdapter.move_to`: read the initial telemetry sample; if the
height already equals the target return at once; otherwise write the wake
code (254) then the stop code (255) to the command characteristic and run
the polling loop. -/
def move_to (target : ℤ) (reads : ℕ → Telemetry) (idx fuel : ℕ) :
    Option MoveOut :=
  let t0 := reads idx
  if (t0.1 : ℤ) = target then
    some ⟨[Event.readHeight t0.1 t0.2], idx + 1, .ok⟩
  else
    match moveLoop target reads fuel (idx + 1) t0.1 with
    | none => none
    | some m =>
      some ⟨Event.readHeight t0.1 t0.2 :: Event.writeGatt .command 254 ::
          Event.writeGatt .command 255 :: m.trace,
        m.next, m.out⟩

/-! ## `run_command` (`bluetooth.py`) -/

/-- Python `int(str)` digit-group tail: digits, with single underscores
allowed strictly between digits. -/
def pyDigitsTail : List Char → Bool
  | [] => true
  | '_' :: c :: rest => c.isDigit && pyDigitsTail rest
  | '_' :: [] => false
  | c :: rest => c.isDigit && pyDigitsTail rest

/-- A nonempty digit group as Python `int` accepts: leading digit, then
digits and single interior underscores. -/
def pyDigitsOk : List Char → Bool
  | [] => false
  | c :: rest => c.isDigit && pyDigitsTail rest

/-- Numeric value of a digit list, skipping underscores. -/
def digitsVal (cs : List Char) : ℕ :=
  cs.foldl (fun acc c => if c.isDigit then acc * 10 + (c.toNat - 48) else acc) 0

/-- Strip leading and trailing whitespace from a character list. -/
def stripWs (cs : List Char) : List Char :=
  ((cs.dropWhile Char.isWhitespace).reverse.dropWhile Char.isWhitespace).reverse

/-- Python `int(s)` on a string: `some` value, or `none` when it raises
`ValueError`.  Surrounding whitespace is stripped, one sign character is
allowed. -/
def pyIntOfString (s : String) : Option ℤ :=
  match stripWs s.toList with
  | '+' :: rest => if pyDigitsOk rest then some (digitsVal rest) else none
  | '-' :: rest => if pyDigitsOk rest then some (-(digitsVal rest : ℤ)) else none
  | cs => if pyDigitsOk cs then some (digitsVal cs) else none

/-- The slice of the merged configuration mapping `run_command` consumes:
the `watch` flag, the optional `move_to` value, the favourites mapping, and
the base height the adapter's unit converter was built with. -/
structure CommandConfig where
  watch : Bool
  move_to : Option String
  favourites : List (String × ℤ)
deriving DecidableEq, Repr

/-- `config.get("favourites", {}).get(value)`: association-list lookup. -/
def lookupFav (favs : List (String × ℤ)) (k : String) : Option ℤ :=
  (favs.find? (fun p => p.1 == k)).map Prod.snd

/-- Result of `run_command`: its trace, the next telemetry read index, the
value of the local variable `target` when the function finished, and how it
finished. -/
structure CmdOut where
  trace : List Event
  next : ℕ
  target : Option ℤ
  out : Outcome
deriving DecidableEq, Repr

/-- `BluetoothAdapter.run_command`: log the current height; in watch mode
subscribe and await forever; otherwise resolve the `move_to` value through
the favourites mapping (with Python truthiness on the looked-up value) or
`int(...)`, run `move_to`, and afterwards — only when `target` is truthy —
read and log the final height. -/
def run_command (base_height : ℤ) (cfg : CommandConfig)
    (reads : ℕ → Telemetry) (fuel : ℕ) : Option CmdOut :=
  let t0 := reads 0
  let pre : List Event :=
    [Event.readHeight t0.1 t0.2, Event.logMsg (.heightOnly t0.1)]
  if cfg.watch then
    some ⟨pre ++ [Event.logMsg .watching, Event.subscribeHeight], 1, none, .blocked⟩
  else
    match cfg.move_to with
    | none => some ⟨pre, 1, none, .ok⟩
    | some mv =>
      let parsed : Option (ℤ × LogLine) :=
        match lookupFav cfg.favourites mv with
        | some f =>
          if f ≠ 0 then some (mm_to_raw_int base_height f, .movingToFavourite mv)
          else (pyIntOfString mv).map
            (fun n => (mm_to_raw_int base_height n, .movingToHeight mv))
        | none => (pyIntOfString mv).map
            (fun n => (mm_to_raw_int base_height n, .movingToHeight mv))
      match parsed with
      | none => some ⟨pre ++ [Event.logMsg (.notValidHeight mv)], 1, none, .ok⟩
      | some (target, line) =>
        match move_to target reads 1 fuel with
        | none => none
        | some m =>
          let trace1 := pre ++ [Event.logMsg line] ++ m.trace
          match m.out with
          | .ok =>
            if target ≠ 0 then
              let tf := reads m.next
              some ⟨trace1 ++
                  [Event.readHeight tf.1 tf.2,
                    Event.logMsg (.finalHeight tf.1 target)],
                m.next + 1, some target, .ok⟩
            else some ⟨trace1, m.next, some target, .ok⟩
          | o => some ⟨trace1, m.next, some target, o⟩

/-! ## Relay server, message-socket variant (`controller.py`,
`run_forwarded_command` + the per-line forwarding log sink) -/

/-- The override keys a relay request may carry for the command slice. -/
structure CommandOverride where
  watch : Option Bool := none
  move_to : Option String := none
deriving DecidableEq, Repr

/-- `merged_config = dict(base, **forwarded)` restricted to the keys
`run_command` consumes. -/
def mergeCommandConfig (base : CommandConfig) (o : CommandOverride) :
    CommandConfig :=
  { base with
    watch := o.watch.getD base.watch,
    move_to := match o.move_to with | some v => some v | none => base.move_to }

/-- The lines the message-socket log sink pushes to the peer: every log
line of the command's trace, rendered, in order. -/
def responseStream (base_height : ℚ) (tr : List Event) : List String :=
  tr.filterMap fun e =>
    match e with
    | .logMsg l => some (renderLog base_height l)
    | _ => none

/-- `LinakController.run_forwarded_command`: merge the received override
mapping over the base configuration, execute `run_command` with the
forwarding log sink, and close the stream. -/
def run_forwarded_command (base_height : ℤ) (base : CommandConfig)
    (o : CommandOverride) (reads : ℕ → Telemetry) (fuel : ℕ) :
    Option (CmdOut × List String) :=
  (run_command base_height (mergeCommandConfig base o) reads fuel).map
    fun r => (r, responseStream (base_height : ℚ) r.trace)

/-! ## Configuration (`config.py`, class `UserConfig`) -/

/-- The merged configuration mapping, restricted to the keys
`UserConfig._validate_config` touches. `sit_height` / `stand_height` are
the derived keys validation inserts. -/
structure Config where
  mac_address : String
  base_height : ℤ
  movement_range : ℤ
  adapter_name : String
  sit_height_offset : Option ℤ
  stand_height_offset : Option ℤ
  sit_height : Option ℤ
  stand_height : Option ℤ
deriving DecidableEq, Repr

/-- `DEFAULT_CONFIG` of `config.py` (the keys modelled here). -/
def DEFAULT_CONFIG : Config :=
  { mac_address := ""
    base_height := 620
    movement_range := 650
    adapter_name := "hci0"
    sit_height_offset := none
    stand_height_offset := none
    sit_height := none
    stand_height := none }

/-- A partial configuration mapping (a YAML file or the non-`None`
command-line arguments) merged over a base with `dict.update`. -/
structure ConfigOverride where
  mac_address : Option String := none
  base_height : Option ℤ := none
  movement_range : Option ℤ := none
  adapter_name : Option String := none
  sit_height_offset : Option ℤ := none
  stand_height_offset : Option ℤ := none
deriving DecidableEq, Repr

/-- `self.config.update(other)`: keys present in `other` replace the base
ones. -/
def applyOverride (c : Config) (o : ConfigOverride) : Config :=
  { c with
    mac_address := o.mac_address.getD c.mac_address
    base_height := o.base_height.getD c.base_height
    movement_range := o.movement_range.getD c.movement_range
    adapter_name := o.adapter_name.getD c.adapter_name
    sit_height_offset :=
      match o.sit_height_offset with
      | some v => some v
      | none => c.sit_height_offset
    stand_height_offset :=
      match o.stand_height_offset with
      | some v => some v
      | none => c.stand_height_offset }

/-- `UserConfig.__init__`: start from `DEFAULT_CONFIG`, merge the custom
config file when present, then merge the command-line arguments. -/
def userConfigInit (fileCfg : Option ConfigOverride) (args : ConfigOverride) :
    Config :=
  applyOverride
    (match fileCfg with
      | some f => applyOverride DEFAULT_CONFIG f
      | none => DEFAULT_CONFIG)
    args

/-- Python `str.upper` on the ASCII strings a mac address consists of. -/
def pyUpper (s : String) : String := String.mk (s.toList.map Char.toUpper)

/-- `UserConfig._validate_config`: reject an empty mac address; range-check
`sit_height_offset` / `stand_height_offset` against `[0, movement_range]`,
deriving `sit_height` / `stand_height` on success; uppercase the mac
address last.  `_log_error` prints the message and calls `exit(1)`;
modelled as `Except.error` carrying the diagnostic. -/
def validate_config (c : Config) : Except String Config :=
  if c.mac_address = "" then .error "Mac address must be provided"
  else
    match
      (match c.sit_height_offset with
        | none => Except.ok c
        | some o =>
          if 0 ≤ o ∧ o ≤ c.movement_range then
            Except.ok { c with sit_height := some (c.base_height + o) }
          else
            Except.error
              ("Sit height offset must be within [0, " ++
                toString c.movement_range ++ "]")) with
    | .error e => .error e
    | .ok c1 =>
      match
        (match c1.stand_height_offset with
          | none => Except.ok c1
          | some o =>
            if 0 ≤ o ∧ o ≤ c1.movement_range then
              Except.ok { c1 with stand_height := some (c1.base_height + o) }
            else
              Except.error
                ("Stand height offset must be within [0, " ++
                  toString c1.movement_range ++ "]")) with
      | .error e => .error e
      | .ok c2 => .ok { c2 with mac_address := pyUpper c2.mac_address }

/-! ## Controller run loop (`controller.py`, `LinakController.run`) -/

/-- Which of the mutually exclusive actions the merged configuration
selects (the branch `run` takes). -/
inductive Action
  | forward
  | scanAdapter
  | server
  | tcpServer
  | direct
deriving DecidableEq, Repr

/-- A modelled Python exception leaving a coroutine: `exit(1)` raises
`SystemExit`, an operator interrupt raises `KeyboardInterrupt`, everything
`except Exception` catches is `otherError`. -/
inductive PyExc
  | systemExit (code : ℕ)
  | keyboardInterrupt
  | otherError (msg : String)
deriving DecidableEq, Repr

/-- `none`: the coroutine returned normally; `some e`: it raised `e`. -/
abbrev PyResult := Option PyExc

/-- The adapter state the controller's cleanup inspects: whether
`self.client` was ever assigned a `BleakClient`, and whether the link is
established (`client.is_connected`). -/
structure Session where
  clientCreated : Bool
  connected : Bool
deriving DecidableEq, Repr

/-- Observable steps of `LinakController.run`. -/
inductive CtrlEvent
  | connectAttempt
  | bodyRun (a : Action)
  | stopCall
  | disconnectCall
  | logText (s : String)
deriving DecidableEq, Repr

/-- `BluetoothAdapter.connect`: the `BleakClient` is constructed (stored in
`self.client`) before the connection is attempted; on failure the
`BleakError` is caught, a diagnostic is printed and `exit(1)` raises
`SystemExit` — with `self.client` already set. -/
def connect (connectOk : Bool) (s : Session) : Session × PyResult :=
  let s1 := { s with clientCreated := true }
  if connectOk then ({ s1 with connected := true }, none)
  else (s1, some (.systemExit 1))

/-- The try block of `LinakController.run`: forward and scan run without a
connection; every other action first connects and then runs its body, whose
outcome the environment `bodyResult` supplies. -/
def controllerTry (a : Action) (connectOk : Bool) (bodyResult : PyResult) :
    Session × List CtrlEvent × PyResult :=
  match a with
  | .forward => (Session.mk false false, [CtrlEvent.bodyRun .forward], bodyResult)
  | .scanAdapter =>
    (Session.mk false false, [CtrlEvent.bodyRun .scanAdapter], bodyResult)
  | a =>
    let (s', cr) := connect connectOk (Session.mk false false)
    match cr with
    | some e => (s', [CtrlEvent.connectAttempt], some e)
    | none => (s', [CtrlEvent.connectAttempt, CtrlEvent.bodyRun a], bodyResult)

/-- `LinakController.run`: the try block, the except clauses and the
`finally` block.  `except KeyboardInterrupt` re-raises, `except Exception`
logs and suppresses (a `SystemExit` passes both), and the `finally` block
runs `stop()` then `disconnect()` whenever `self.client` is set.  Returns
the final session state, the event trace and the exception leaving
`run`. -/
def controllerRun (a : Action) (connectOk : Bool) (bodyResult : PyResult) :
    Session × List CtrlEvent × PyResult :=
  let (s1, tr1, r1) := controllerTry a connectOk bodyResult
  let r2 : PyResult :=
    match r1 with
    | some (.otherError _) => none
    | r => r
  let cleanup : List CtrlEvent :=
    if s1.clientCreated then [CtrlEvent.stopCall, CtrlEvent.disconnectCall] else []
  (s1, tr1 ++ cleanup, r2)

/-! ## Entry point -/

/-- Modelled from the spec: the console entry point
`linak_ble_controller.main:main` named by `setup.py` (the file
`linak_ble_controller/main.py` is not under `src/`).  Per the spec, a
configuration validation failure (missing mac address, height offset out of
`[0, movement_range]`) "terminates the process with a non-zero status after
printing a diagnostic" and no device connection is ever attempted, and the
validated configuration is the one the rest of the program consumes: `main`
builds the merged user configuration, invokes its validation, and only on
success constructs and runs the controller with the validated
configuration.  Returns the trace, the process exit status (when the
process exits through `SystemExit`), and the configuration the controller
ran with (`none` when validation failed). -/
def main (fileCfg : Option ConfigOverride) (args : ConfigOverride)
    (a : Action) (connectOk : Bool) (bodyResult : PyResult) :
    List CtrlEvent × Option ℕ × Option Config :=
  match validate_config (userConfigInit fileCfg args) with
  | .error diag => ([CtrlEvent.logText diag], some 1, none)
  | .ok cfg =>
    let (_, tr, r) := controllerRun a connectOk bodyResult
    (tr, match r with | some (.systemExit n) => some n | _ => none, some cfg)

/-! ## Trace shapes used in statements -/

/-- Does the string match `Height: ...mm`, i.e. start with `Height: ` and
end with `mm`?  (Character-list based so that it evaluates in the
kernel.) -/
def matchesHeightLine (s : String) : Bool :=
  (s.toList.take 8 == "Height: ".toList) && (s.toList.reverse.take 2 == ['m', 'm'])

/-- Telemetry stream of a desk that starts at height 100 and reaches height
900 (raw) at the fourth read: reads 1 and 2 see it moving at 300. -/
def risingReads : ℕ → Telemetry := fun i =>
  if i = 0 then ((100 : ℕ), (0 : ℤ))
  else if i ≤ 2 then ((300 : ℕ), (50 : ℤ))
  else ((900 : ℕ), (0 : ℤ))

/-- Telemetry stream of a desk that already sits at height 900 (raw). -/
def quickReads : ℕ → Telemetry := fun _ => ((900 : ℕ), (0 : ℤ))

/-- The full `run_command` outcome for a move to height 700 (raw target
800) over `quickReads`: the initial position 900 is already at or above the
target, so the loop body never runs, and the final-height report follows
the wake/stop writes. -/
def quickMoveOut : CmdOut :=
  ⟨[Event.readHeight 900 0, Event.logMsg (.heightOnly 900),
      Event.logMsg (.movingToHeight "700"), Event.readHeight 900 0,
      Event.writeGatt .command 254, Event.writeGatt .command 255,
      Event.readHeight 900 0, Event.logMsg (.finalHeight 900 800)],
    3, some 800, .ok⟩

/-! ## Theorems -/

/-- C5: for every base height and raw tick count, converting raw ticks to
millimetres and back with `UnitConverter` yields the original value (here
even exactly, since Python true division is exact on these rationals), and
both conversions are strictly monotonically increasing in their
argument. -/
theorem unit_conversion_round_trip_mono (b r r' m m' : ℚ) :
    mm_to_raw b (raw_to_mm b r) = r ∧
    (r < r' → raw_to_mm b r < raw_to_mm b r') ∧
    (m < m' → mm_to_raw b m < mm_to_raw b m') := by
  refine ⟨?_, ?_, ?_⟩
  · unfold mm_to_raw raw_to_mm; ring
  · intro h; unfold raw_to_mm; linarith
  · intro h; unfold mm_to_raw; linarith

/-- Witness for C5 at base height 620, raw ticks 5 < 7, millimetres
1 < 2. -/
theorem unit_conversion_round_trip_mono_witness :
    mm_to_raw 620 (raw_to_mm 620 5) = 5 ∧
    ((5 : ℚ) < 7 ∧ raw_to_mm 620 5 < raw_to_mm 620 7) ∧
    ((1 : ℚ) < 2 ∧ mm_to_raw 620 1 < mm_to_raw 620 2) :=
  ⟨(unit_conversion_round_trip_mono 620 5 7 1 2).1,
    ⟨by norm_num, (unit_conversion_round_trip_mono 620 5 7 1 2).2.1 (by norm_num)⟩,
    ⟨by norm_num, (unit_conversion_round_trip_mono 620 5 7 1 2).2.2 (by norm_num)⟩⟩

/-- Helper: `move_to_target` on an in-range target performs exactly the
reference-input write. -/
theorem move_to_target_ok_of (t : ℤ) (h : 0 ≤ t ∧ t ≤ 65535) :
    move_to_target t = .ok [Event.writeGatt .referenceInput t.toNat] := by
  unfold move_to_target packUShort
  rw [if_pos h]

/-- Helper: `move_to_target` on an out-of-range target raises
`struct.error`. -/
theorem move_to_target_error_of (t : ℤ) (h : ¬(0 ≤ t ∧ t ≤ 65535)) :
    move_to_target t = .error "struct.error: argument out of range" := by
  unfold move_to_target packUShort
  rw [if_neg h]

/-- C9: `move_to_target` succeeds only for integer targets in [0, 65535].
For every target whose integer value is negative or exceeds 65535 the `<H`
encoding raises `struct.error` and no write to the reference-input
characteristic occurs; for in-range values exactly the 2-byte
reference-input write happens. -/
theorem move_to_target_range_check (t : ℤ) :
    (t < 0 ∨ 65535 < t →
      move_to_target t = .error "struct.error: argument out of range") ∧
    (0 ≤ t ∧ t ≤ 65535 →
      move_to_target t = .ok [Event.writeGatt .referenceInput t.toNat]) := by
  constructor
  · intro h
    exact move_to_target_error_of t (by omega)
  · intro h
    exact move_to_target_ok_of t h

/-- Witness for C9: the raw value computed for requested height 100 below
base height 620 is -5200, and encoding it raises `struct.error`. -/
theorem move_to_target_range_check_witness :
    mm_to_raw_int 620 100 = -5200 ∧ mm_to_raw_int 620 100 < 0 ∧
    move_to_target (mm_to_raw_int 620 100) =
      .error "struct.error: argument out of range" :=
  ⟨by decide, by decide,
    (move_to_target_range_check (mm_to_raw_int 620 100)).1 (Or.inl (by decide))⟩

/-- C6: when the position read at the start of `move_to` already equals the
target, the call returns immediately after that single read: its trace
contains no write to any characteristic (in particular none to the
reference input), so the device state is left unchanged. -/
theorem move_to_equal_target_no_write (target : ℤ) (reads : ℕ → Telemetry)
    (idx fuel : ℕ) (h : ((reads idx).1 : ℤ) = target) :
    move_to target reads idx fuel =
      some ⟨[Event.readHeight (reads idx).1 (reads idx).2], idx + 1, .ok⟩ ∧
    ∀ e ∈ [Event.readHeight (reads idx).1 (reads idx).2], isWrite e = false := by
  constructor
  · simp only [move_to]
    rw [if_pos h]
  · intro e he
    simp only [List.mem_singleton] at he
    subst he
    rfl

/-- Witness for C6: initial read 800 equals target 800. -/
theorem move_to_equal_target_no_write_witness :
    (((fun _ => ((800 : ℕ), (0 : ℤ)) : ℕ → Telemetry) 0).1 : ℤ) = 800 ∧
    move_to 800 (fun _ => ((800 : ℕ), (0 : ℤ))) 0 7 =
      some ⟨[Event.readHeight 800 0], 1, .ok⟩ :=
  ⟨by norm_num,
    (move_to_equal_target_no_write 800 (fun _ => ((800 : ℕ), (0 : ℤ))) 0 7
      (by norm_num)).1⟩

/-- C7: a `move_to` value that is neither a favourites key nor parseable by
Python `int` makes `run_command` log the line
`Not a valid height or favourite position: <value>` and return right away,
with no write to any device characteristic. -/
theorem invalid_move_value_logs_and_returns (base : ℤ) (cfg : CommandConfig)
    (reads : ℕ → Telemetry) (fuel : ℕ) (v : String) (bh : ℚ)
    (hw : cfg.watch = false) (hmv : cfg.move_to = some v)
    (hfav : lookupFav cfg.favourites v = none)
    (hparse : pyIntOfString v = none) :
    run_command base cfg reads fuel =
      some ⟨[Event.readHeight (reads 0).1 (reads 0).2,
          Event.logMsg (.heightOnly (reads 0).1),
          Event.logMsg (.notValidHeight v)], 1, none, .ok⟩ ∧
    renderLog bh (.notValidHeight v) =
      "Not a valid height or favourite position: " ++ v ∧
    ∀ e ∈ [Event.readHeight (reads 0).1 (reads 0).2,
        Event.logMsg (.heightOnly (reads 0).1),
        Event.logMsg (.notValidHeight v)], isWrite e = false := by
  refine ⟨?_, rfl, ?_⟩
  · simp only [run_command, hw, hmv, hfav, hparse, if_neg Bool.false_ne_true]
    rfl
  · intro e he
    fin_cases he <;> rfl

/-- Witness for C7: value "up" with empty favourites. -/
theorem invalid_move_value_logs_and_returns_witness :
    lookupFav [] "up" = none ∧ pyIntOfString "up" = none ∧
    run_command 620 ⟨false, some "up", []⟩ (fun _ => ((1000 : ℕ), (0 : ℤ))) 10 =
      some ⟨[Event.readHeight 1000 0, Event.logMsg (.heightOnly 1000),
          Event.logMsg (.notValidHeight "up")], 1, none, .ok⟩ :=
  ⟨rfl, by decide,
    (invalid_move_value_logs_and_returns 620 ⟨false, some "up", []⟩
      (fun _ => ((1000 : ℕ), (0 : ℤ))) 10 "up" 620 rfl rfl rfl (by decide)).1⟩

/-- Helper: an out-of-range `sit_height_offset` makes `_validate_config`
fail with a diagnostic (the empty-mac check may fire first, also with a
diagnostic). -/
theorem validate_config_sit_out (c : Config) (o : ℤ)
    (h1 : c.sit_height_offset = some o)
    (h2 : o < 0 ∨ c.movement_range < o) :
    ∃ d, validate_config c = .error d := by
  unfold validate_config
  by_cases hm : c.mac_address = ""
  · exact ⟨_, by rw [if_pos hm]⟩
  · have hbad : ¬(0 ≤ o ∧ o ≤ c.movement_range) := by omega
    rw [if_neg hm]
    simp only [h1, if_neg hbad]
    exact ⟨_, rfl⟩

/-- C2: for every configuration whose merged `sit_height_offset` lies
outside `[0, movement_range]`, running the program prints a diagnostic,
terminates with exit status 1, and never attempts a connection to the
device. -/
theorem sit_offset_out_of_range_exits (fileCfg : Option ConfigOverride)
    (args : ConfigOverride) (a : Action) (cOk : Bool) (b : PyResult) (o : ℤ)
    (h1 : (userConfigInit fileCfg args).sit_height_offset = some o)
    (h2 : o < 0 ∨ (userConfigInit fileCfg args).movement_range < o) :
    (∃ d, (main fileCfg args a cOk b).1 = [CtrlEvent.logText d]) ∧
    (main fileCfg args a cOk b).2.1 = some 1 ∧
    CtrlEvent.connectAttempt ∉ (main fileCfg args a cOk b).1 := by
  obtain ⟨d, hd⟩ := validate_config_sit_out _ o h1 h2
  unfold main
  rw [hd]
  exact ⟨⟨d, rfl⟩, rfl, by simp⟩

/-- Witness for C2: command-line arguments carrying mac address "aa" and
`sit_height_offset` -1 over the defaults. -/
theorem sit_offset_out_of_range_exits_witness :
    (userConfigInit none
        { mac_address := some "aa", sit_height_offset := some (-1) }).sit_height_offset =
      some (-1) ∧
    ((-1 : ℤ) < 0) ∧
    (main none { mac_address := some "aa", sit_height_offset := some (-1) }
          .direct true none).2.1 = some 1 ∧
    CtrlEvent.connectAttempt ∉
      (main none { mac_address := some "aa", sit_height_offset := some (-1) }
        .direct true none).1 :=
  ⟨by decide, by decide,
    (sit_offset_out_of_range_exits none
      { mac_address := some "aa", sit_height_offset := some (-1) }
      .direct true none (-1) (by decide) (Or.inl (by decide))).2⟩

/-- Helper: when `_validate_config` succeeds, the resulting mac address is
the uppercased input one (the offset steps never touch it). -/
theorem validate_config_mac (c c' : Config) (h : validate_config c = .ok c') :
    c'.mac_address = pyUpper c.mac_address := by
  unfold validate_config at h
  by_cases hm : c.mac_address = ""
  · rw [if_pos hm] at h
    exact absurd h (by simp)
  · rw [if_neg hm] at h
    rcases hs : c.sit_height_offset with _ | o
    · rcases ht : c.stand_height_offset with _ | p
      · simp only [hs, ht] at h
        injection h with h
        rw [← h]
      · by_cases hp : 0 ≤ p ∧ p ≤ c.movement_range
        · simp only [hs, ht, if_pos hp] at h
          injection h with h
          rw [← h]
        · simp only [hs, ht, if_neg hp] at h
          exact absurd h (by simp)
    · by_cases ho : 0 ≤ o ∧ o ≤ c.movement_range
      · rcases ht : c.stand_height_offset with _ | p
        · simp only [hs, if_pos ho, ht] at h
          injection h with h
          rw [← h]
        · by_cases hp : 0 ≤ p ∧ p ≤ c.movement_range
          · simp only [hs, if_pos ho, ht, if_pos hp] at h
            injection h with h
            rw [← h]
          · simp only [hs, if_pos ho, ht, if_neg hp] at h
            exact absurd h (by simp)
      · simp only [hs, if_neg ho] at h
        exact absurd h (by simp)

/-- C8: whenever the program proceeds past configuration validation, the
configuration it consumes holds the uppercase-normalised form of the merged
input mac address. -/
theorem mac_address_uppercase_after_validation (fileCfg : Option ConfigOverride)
    (args : ConfigOverride) (a : Action) (cOk : Bool) (b : PyResult) (c' : Config)
    (h : (main fileCfg args a cOk b).2.2 = some c') :
    c'.mac_address = pyUpper (userConfigInit fileCfg args).mac_address := by
  unfold main at h
  cases hv : validate_config (userConfigInit fileCfg args) with
  | error e =>
    rw [hv] at h
    exact absurd h (by simp)
  | ok cfg =>
    rw [hv] at h
    simp only [Option.some.injEq] at h
    rw [← h]
    exact validate_config_mac _ _ hv

/-- Witness for C8: mac address "aa:bb:cc:dd:ee:ff" is stored as
"AA:BB:CC:DD:EE:FF". -/
theorem mac_address_uppercase_after_validation_witness :
    (main none { mac_address := some "aa:bb:cc:dd:ee:ff" } .direct true none).2.2 =
      some { DEFAULT_CONFIG with mac_address := "AA:BB:CC:DD:EE:FF" } ∧
    ({ DEFAULT_CONFIG with mac_address := "AA:BB:CC:DD:EE:FF" } : Config).mac_address =
      pyUpper (userConfigInit none { mac_address := some "aa:bb:cc:dd:ee:ff" }).mac_address :=
  ⟨by decide,
    mac_address_uppercase_after_validation none
      { mac_address := some "aa:bb:cc:dd:ee:ff" } .direct true none
      { DEFAULT_CONFIG with mac_address := "AA:BB:CC:DD:EE:FF" } (by decide)⟩

/-- C4 counterexample: on the direct-run path with a failing connection
attempt, no connection is ever established, yet the `finally` block still
invokes the Stop/Disconnect cleanup once — because `self.client` is
assigned before the connection attempt and the cleanup guard only checks
`self.client`.  This refutes "zero times if no connection was ever
established". -/
theorem cleanup_failed_connect_counterexample :
    (controllerRun .direct false none).1.connected = false ∧
    (controllerRun .direct false none).2.1.count CtrlEvent.stopCall = 1 ∧
    (controllerRun .direct false none).2.1.count CtrlEvent.disconnectCall = 1 ∧
    (controllerRun .direct false none).2.2 = some (.systemExit 1) := by
  decide

/-- C4 amended: on every exit path of the run loop, Stop followed by
Disconnect is invoked exactly once — as the final two steps — if the client
handle was created (i.e. the taken path attempted a connection, whether or
not it succeeded, which covers every established connection), and zero
times if it was not. -/
theorem cleanup_once_iff_client_created (a : Action) (cOk : Bool) (b : PyResult) :
    ((controllerRun a cOk b).1.clientCreated = true →
      (controllerRun a cOk b).2.1.count CtrlEvent.stopCall = 1 ∧
      (controllerRun a cOk b).2.1.count CtrlEvent.disconnectCall = 1 ∧
      [CtrlEvent.stopCall, CtrlEvent.disconnectCall] <:+ (controllerRun a cOk b).2.1) ∧
    ((controllerRun a cOk b).1.clientCreated = false →
      (controllerRun a cOk b).2.1.count CtrlEvent.stopCall = 0 ∧
      (controllerRun a cOk b).2.1.count CtrlEvent.disconnectCall = 0) ∧
    ((controllerRun a cOk b).1.connected = true →
      (controllerRun a cOk b).1.clientCreated = true) := by
  have hnc : CtrlEvent.stopCall ∉ (controllerTry a cOk b).2.1 ∧
      CtrlEvent.disconnectCall ∉ (controllerTry a cOk b).2.1 := by
    cases a <;> cases cOk <;> simp [controllerTry, connect]
  have hcc : (controllerTry a cOk b).1.connected = true →
      (controllerTry a cOk b).1.clientCreated = true := by
    cases a <;> cases cOk <;> simp [controllerTry, connect]
  rcases hct : controllerTry a cOk b with ⟨s1, tr1, r1⟩
  rw [hct] at hnc hcc
  have h1 : (controllerRun a cOk b).1 = s1 := by
    simp only [controllerRun, hct]
  have h2 : (controllerRun a cOk b).2.1 =
      tr1 ++ (if s1.clientCreated then
        [CtrlEvent.stopCall, CtrlEvent.disconnectCall] else []) := by
    simp only [controllerRun, hct]
  rw [h1, h2]
  refine ⟨fun h => ?_, fun h => ?_, hcc⟩
  · rw [if_pos h]
    refine ⟨?_, ?_, ⟨tr1, rfl⟩⟩
    · rw [List.count_append, List.count_eq_zero.mpr hnc.1]
      rfl
    · rw [List.count_append, List.count_eq_zero.mpr hnc.2]
      rfl
  · rw [h]
    simp only [Bool.false_eq_true, if_false, List.append_nil]
    exact ⟨List.count_eq_zero.mpr hnc.1, List.count_eq_zero.mpr hnc.2⟩

/-- Helper: the float formatting rounds an integral value to itself. -/
theorem roundHalfEven_intCast (n : ℤ) : roundHalfEven (n : ℚ) = n := by
  unfold roundHalfEven
  rw [Int.floor_intCast]
  norm_num

/-- Helper: the initial height line for raw height 1000 at base height 620
renders as the desk height 720 mm. -/
theorem renderLog_heightOnly_720 :
    renderLog 620 (.heightOnly 1000) = "Height:  720mm" := by
  have h : raw_to_mm 620 ((1000 : ℕ) : ℚ) = ((720 : ℤ) : ℚ) := by
    unfold raw_to_mm
    norm_num
  simp only [renderLog, fmtFixed, h, roundHalfEven_intCast]
  rfl

/-- C3 counterexample: for the relay request `move-to 100` over base height
620, the computed raw target is -5200, but — contrary to the claim — that
value is never written to the reference-input endpoint: the unsigned
position (here 1000) is never less than the negative target, so the
polling-loop body never runs and the command completes with zero
reference-input writes. -/
theorem relay_move_below_base_counterexample :
    (run_forwarded_command 620 ⟨false, none, []⟩ { move_to := some "100" }
        (fun _ => ((1000 : ℕ), (0 : ℤ))) 10).map
      (fun r => (r.1.target, r.1.trace.countP isRefWrite, r.1.out)) =
      some (some (-5200), 0, .ok) := by
  decide

/-- C3 amended: for the relay request `move-to 100` over base height 620,
the computed raw target is `(100 - 620) * 10 = -5200`; no write to the
reference-input endpoint occurs (the unsigned position is never below the
negative target, so the polling loop performs zero iterations); and the
response stream still contains a line matching `Height: ...mm` — its first
line — before the stream closes. -/
theorem relay_move_below_base_amended :
    mm_to_raw_int 620 100 = -5200 ∧
    run_forwarded_command 620 ⟨false, none, []⟩ { move_to := some "100" }
        (fun _ => ((1000 : ℕ), (0 : ℤ))) 10 =
      some (⟨[Event.readHeight 1000 0, Event.logMsg (.heightOnly 1000),
            Event.logMsg (.movingToHeight "100"), Event.readHeight 1000 0,
            Event.writeGatt .command 254, Event.writeGatt .command 255,
            Event.readHeight 1000 0, Event.logMsg (.finalHeight 1000 (-5200))],
          3, some (-5200), .ok⟩,
        [renderLog 620 (.heightOnly 1000), renderLog 620 (.movingToHeight "100"),
          renderLog 620 (.finalHeight 1000 (-5200))]) ∧
    renderLog 620 (.heightOnly 1000) = "Height:  720mm" ∧
    matchesHeightLine "Height:  720mm" = true :=
  ⟨by decide, by rfl, renderLog_heightOnly_720, by decide⟩

/-- Helper: the polling loop never emits a `Final height:` log line. -/
theorem moveLoop_no_final (target : ℤ) (reads : ℕ → Telemetry) :
    ∀ (fuel idx cur : ℕ) (m : MoveOut),
      moveLoop target reads fuel idx cur = some m →
      m.trace.countP isFinalLog = 0 := by
  intro fuel
  induction fuel with
  | zero =>
    intro idx cur m h
    exact absurd h (by simp [moveLoop])
  | succ fuel ih =>
    intro idx cur m h
    simp only [moveLoop] at h
    by_cases hc : (cur : ℤ) < target
    · rw [if_pos hc] at h
      by_cases hp : 0 ≤ target ∧ target ≤ 65535
      · rw [move_to_target_ok_of target hp] at h
        cases hm : moveLoop target reads fuel (idx + 1) cur with
        | none =>
          rw [hm] at h
          exact absurd h (by simp)
        | some m' =>
          rw [hm] at h
          simp only [Option.some.injEq] at h
          rw [← h]
          simp [List.countP_cons, List.countP_append, isFinalLog,
            ih _ _ _ hm]
      · rw [move_to_target_error_of target hp] at h
        simp only [Option.some.injEq] at h
        rw [← h]
        rfl
    · rw [if_neg hc] at h
      simp only [Option.some.injEq] at h
      rw [← h]
      rfl

/-- Helper: `move_to` never emits a `Final height:` log line. -/
theorem move_to_no_final (target : ℤ) (reads : ℕ → Telemetry)
    (idx fuel : ℕ) (m : MoveOut) (h : move_to target reads idx fuel = some m) :
    m.trace.countP isFinalLog = 0 := by
  simp only [move_to] at h
  by_cases he : ((reads idx).1 : ℤ) = target
  · rw [if_pos he] at h
    simp only [Option.some.injEq] at h
    rw [← h]
    rfl
  · rw [if_neg he] at h
    cases hm : moveLoop target reads fuel (idx + 1) (reads idx).1 with
    | none =>
      rw [hm] at h
      exact absurd h (by simp)
    | some m' =>
      rw [hm] at h
      simp only [Option.some.injEq] at h
      rw [← h]
      simp [List.countP_cons, isFinalLog, moveLoop_no_final target reads _ _ _ _ hm]

/-- Helper: when `run_command` emits a `Final height:` line, the local
`target` was set and non-zero. -/
theorem run_command_final_target (base : ℤ) (cfg : CommandConfig)
    (reads : ℕ → Telemetry) (fuel : ℕ) (r : CmdOut)
    (h : run_command base cfg reads fuel = some r)
    (hf : r.trace.countP isFinalLog ≠ 0) :
    r.target ≠ some 0 ∧ r.target ≠ none := by
  simp only [run_command] at h
  cases hw : cfg.watch with
  | true =>
    simp only [hw, if_true, Option.some.injEq] at h
    rw [← h] at hf
    exact absurd (by rfl) hf
  | false =>
    simp only [hw, Bool.false_eq_true, if_false] at h
    cases hmv : cfg.move_to with
    | none =>
      simp only [hmv, Option.some.injEq] at h
      rw [← h] at hf
      exact absurd (by rfl) hf
    | some mv =>
      simp only [hmv] at h
      rcases hpp : (match lookupFav cfg.favourites mv with
        | some f =>
          if f ≠ 0 then some (mm_to_raw_int base f, LogLine.movingToFavourite mv)
          else (pyIntOfString mv).map
            (fun n => (mm_to_raw_int base n, LogLine.movingToHeight mv))
        | none => (pyIntOfString mv).map
            (fun n => (mm_to_raw_int base n, LogLine.movingToHeight mv))) with
        _ | ⟨target, line⟩
      · simp only [hpp, Option.some.injEq] at h
        rw [← h] at hf
        exact absurd (by rfl) hf
      · have hline : isFinalLog (Event.logMsg line) = false := by
          rcases hl : lookupFav cfg.favourites mv with _ | f
          · cases hp2 : pyIntOfString mv with
            | none =>
              simp only [hl, hp2] at hpp
              exact absurd hpp (by simp)
            | some n =>
              simp only [hl, hp2, Option.map_some', Option.some.injEq,
                Prod.mk.injEq] at hpp
              rw [← hpp.2]
              rfl
          · by_cases hf0 : f ≠ 0
            · simp only [hl, if_pos hf0, Option.some.injEq, Prod.mk.injEq] at hpp
              rw [← hpp.2]
              rfl
            · cases hp2 : pyIntOfString mv with
              | none =>
                simp only [hl, if_neg hf0, hp2] at hpp
                exact absurd hpp (by simp)
              | some n =>
                simp only [hl, if_neg hf0, hp2, Option.map_some',
                  Option.some.injEq, Prod.mk.injEq] at hpp
                rw [← hpp.2]
                rfl
        simp only [hpp] at h
        cases hm : move_to target reads 1 fuel with
        | none =>
          simp only [hm] at h
          exact absurd h (by simp)
        | some m =>
          simp only [hm] at h
          have hmf := move_to_no_final target reads 1 fuel m hm
          have e1 : isFinalLog (Event.readHeight (reads 0).1 (reads 0).2) = false := rfl
          have e2 : isFinalLog (Event.logMsg (LogLine.heightOnly (reads 0).1)) = false := rfl
          cases ho : m.out with
          | ok =>
            simp only [ho] at h
            by_cases ht : target ≠ 0
            · rw [if_pos ht] at h
              simp only [Option.some.injEq] at h
              rw [← h]
              refine ⟨fun hc => ht ?_, by simp⟩
              simpa using hc
            · rw [if_neg ht] at h
              simp only [Option.some.injEq] at h
              rw [← h] at hf
              exact absurd (by simp [List.countP_cons, List.countP_append,
                e1, e2, hmf, hline]) hf
          | error msg =>
            simp only [ho, Option.some.injEq] at h
            rw [← h] at hf
            exact absurd (by simp [List.countP_cons, List.countP_append,
              e1, e2, hmf, hline]) hf
          | blocked =>
            simp only [ho, Option.some.injEq] at h
            rw [← h] at hf
            exact absurd (by simp [List.countP_cons, List.countP_append,
              e1, e2, hmf, hline]) hf

/-- C10: `run_command` emits a `Final height:` report only when the
computed raw target is set and non-zero; for a requested height equal to
the configured base height (raw target 0, here `move_to 620` at base 620)
the final-height report is skipped even though the move was performed (the
move sequence's wake and stop writes are in the trace). -/
theorem final_height_only_for_nonzero_target :
    (∀ (base : ℤ) (cfg : CommandConfig) (reads : ℕ → Telemetry) (fuel : ℕ)
        (r : CmdOut), run_command base cfg reads fuel = some r →
      r.trace.countP isFinalLog ≠ 0 → r.target ≠ some 0 ∧ r.target ≠ none) ∧
    (run_command 620 ⟨false, some "620", []⟩ (fun _ => ((1000 : ℕ), (0 : ℤ))) 10).map
      (fun r => (r.target, r.trace.countP isFinalLog,
        r.trace.count (Event.writeGatt .command 254),
        r.trace.count (Event.writeGatt .command 255), r.out)) =
      some (some 0, 0, 1, 1, .ok) :=
  ⟨run_command_final_target, by decide⟩

/-- Witness for C10: a move to height 700 at base 620 (raw target 800) over
`quickReads` does emit the final-height report, and indeed its target is
set and non-zero. -/
theorem final_height_only_for_nonzero_target_witness :
    run_command 620 ⟨false, some "700", []⟩ quickReads 10 = some quickMoveOut ∧
    quickMoveOut.trace.countP isFinalLog ≠ 0 ∧
    quickMoveOut.target ≠ some 0 ∧ quickMoveOut.target ≠ none :=
  ⟨by decide, by decide,
    final_height_only_for_nonzero_target.1 620 ⟨false, some "700", []⟩
      quickReads 10 quickMoveOut (by decide) (by decide)⟩

/-- Witness for C4 amended: direct run, successful connection, normal body
completion. -/
theorem cleanup_once_iff_client_created_witness :
    (controllerRun .direct true none).1.clientCreated = true ∧
    (controllerRun .direct true none).2.1.count CtrlEvent.stopCall = 1 ∧
    (controllerRun .direct true none).2.1.count CtrlEvent.disconnectCall = 1 ∧
    [CtrlEvent.stopCall, CtrlEvent.disconnectCall] <:+ (controllerRun .direct true none).2.1 :=
  ⟨by decide,
    (cleanup_once_iff_client_created .direct true none).1 (by decide)⟩

/-- Helper: once entered with an encodable target, the polling loop never
terminates: the source never reassigns `current_height` inside the loop
(the re-read goes into the locals `height, speed`, which only feed the log
line), so the guard keeps testing the stale value whatever the telemetry
reads return. -/
theorem moveLoop_never_terminates (target : ℤ) (reads : ℕ → Telemetry)
    (cur : ℕ) (hcur : (cur : ℤ) < target) (hbound : target ≤ 65535) :
    ∀ fuel idx, moveLoop target reads fuel idx cur = none := by
  have h0 : 0 ≤ target := le_of_lt (lt_of_le_of_lt (Int.natCast_nonneg cur) hcur)
  intro fuel
  induction fuel with
  | zero =>
    intro idx
    rfl
  | succ fuel ih =>
    intro idx
    simp only [moveLoop]
    rw [if_pos hcur, move_to_target_ok_of target ⟨h0, hbound⟩]
    simp only [ih (idx + 1)]

/-- C1 (code bug): for every `move_to` call whose initially read position
is strictly below an encodable target, the call never returns — with any
amount of fuel the loop is still running.  `current_height` is assigned
once before the loop and never reassigned inside it (the telemetry re-read
goes into `height, speed`, used only for the log line), so the loop does
not update its notion of the current position from the reads and does not
terminate at the first read at or above the target, contrary to the claim
and to the spec's step "update current position". -/
theorem move_to_loop_never_updates_position (target : ℤ)
    (reads : ℕ → Telemetry) (idx : ℕ)
    (hinit : ((reads idx).1 : ℤ) < target) (hbound : target ≤ 65535) :
    ∀ fuel, move_to target reads idx fuel = none := by
  intro fuel
  simp only [move_to]
  rw [if_neg (ne_of_lt hinit)]
  simp only [moveLoop_never_terminates target reads (reads idx).1 hinit hbound
    fuel (idx + 1)]

/-- Witness for C1: target 800 over `risingReads` — the initial read is
100 < 800 and every read from the fourth on reports 900 ≥ 800, yet after
1000 iterations' worth of fuel the call still has not returned: the loop
ran past the first read at or above the target. -/
theorem move_to_loop_never_updates_position_witness :
    ((risingReads 0).1 : ℤ) < 800 ∧ ((800 : ℤ) ≤ 65535) ∧
    (800 : ℤ) ≤ ((risingReads 3).1 : ℤ) ∧
    move_to 800 risingReads 0 1000 = none :=
  ⟨by decide, by decide, by decide,
    move_to_loop_never_updates_position 800 risingReads 0 (by decide)
      (by decide) 1000⟩

/-- The other way an entered loop run ends: an unencodable target (here
70000) makes the first iteration's unsigned 16-bit encoding raise
`struct.error` before any reference-input write and before any telemetry
re-read, so the call aborts by exception after the wake and stop writes. -/
theorem move_to_overflow_aborts :
    move_to 70000 (fun _ => ((0 : ℕ), (0 : ℤ))) 0 5 =
      some ⟨[Event.readHeight 0 0, Event.writeGatt .command 254,
          Event.writeGatt .command 255], 1,
        .error "struct.error: argument out of range"⟩ ∧
    (move_to 70000 (fun _ => ((0 : ℕ), (0 : ℤ))) 0 5).map
      (fun m => (m.trace.countP isRefWrite,
        m.trace.countP (fun e =>
          match e with | .readHeight _ _ => true | _ => false))) =
      some (0, 1) := by
  constructor
  · decide
  · decide

end LinakBLE
